import Mathlib

/-
Verification of the real-time message-delivery subsystem of the chat backend
(backend/main.py and backend/websocket_manager.py), via a shallow embedding:

  * identifiers (UUIDs in the source) are modelled as natural numbers;
  * the ORM session is modelled as an explicit record of persisted rows
    (messages, conversation timestamps, read receipts);
  * the side effects of a handler (send_personal_message, closing the
    socket, and calls to ConnectionManager.broadcast_to_conversation with
    their exclusion arguments) are reified as an output event list;
  * ConnectionManager is a record of its three indices, with dict/defaultdict
    lookups modelled as total functions (a missing key is the empty set /
    none, which matches defaultdict semantics observationally);
  * a persistence failure inside the try block of handle_send_message
    (an exception raised by the commit) is injected through an explicit
    PersistOutcome argument, standing for the exception text str(e).
-/

namespace ChatClone

abbrev ConnId := Nat
abbrev UserId := Nat
abbrev ConvId := Nat
abbrev MsgId := Nat

/-- Persisted row of the messages table (models.Message), with the columns
the websocket path reads and writes.  created_at and updated_at default to
the insertion time; edited defaults to false. -/
structure Message where
  id : MsgId
  conversation_id : ConvId
  sender_id : UserId
  content : String
  message_type : String
  reply_to : Option MsgId
  message_metadata : Option String
  created_at : Nat
  updated_at : Nat
  edited : Bool
deriving Repr, DecidableEq

/-- Database state visible to the websocket handlers: persisted messages,
the conversations' updated_at column, and the message_reads table
(rows are (message_id, user_id, read_at)). -/
structure Db where
  messages : List Message
  conv_updated_at : List (ConvId × Nat)
  message_reads : List (MsgId × UserId × Nat)
deriving Repr, DecidableEq

/-- Embeds db.query(Message).filter(Message.id == message_uuid).first(). -/
def Db.findMessage (db : Db) (mid : MsgId) : Option Message :=
  db.messages.find? (fun m => m.id == mid)

/-- Embeds db.query(Conversation).filter(Conversation.id == conversation_id)
.update on the updated_at column. -/
def touchConversation (l : List (ConvId × Nat)) (c : ConvId) (now : Nat) :
    List (ConvId × Nat) :=
  l.map (fun p => if p.1 = c then (p.1, now) else p)

/-- Inbound send_message frame, after JSON decoding.  A missing key is none.
The source parses message_id and reply_to with UUID(...); reply_to of
invalid format is silently treated as absent, so reply_to is stored here
already parsed. -/
structure SendFrame where
  message_id : Option MsgId
  content : Option String
  message_type : Option String
  reply_to : Option MsgId
  message_metadata : Option String
deriving Repr, DecidableEq

/-- Python truthiness of the content field: the check `if not content` in
handle_send_message treats both a missing key and an empty string as
missing. -/
def contentVal (f : SendFrame) : Option String :=
  match f.content with
  | none => none
  | some s => if s.isEmpty then none else some s

/-- Body of the message object embedded in a new_message frame, mirroring
the dict literal built in handle_send_message. -/
structure MsgJson where
  id : MsgId
  conversation_id : ConvId
  sender_id : UserId
  content : String
  message_type : String
  created_at : Nat
  updated_at : Nat
  edited : Bool
  reply_to : Option MsgId
  message_metadata : Option String
  reactions : List String
deriving Repr, DecidableEq

/-- Serialises a persisted message the way both broadcast sites in
handle_send_message do (reactions always the empty list). -/
def msgJsonOf (m : Message) : MsgJson :=
  { id := m.id
    conversation_id := m.conversation_id
    sender_id := m.sender_id
    content := m.content
    message_type := m.message_type
    created_at := m.created_at
    updated_at := m.updated_at
    edited := m.edited
    reply_to := m.reply_to
    message_metadata := m.message_metadata
    reactions := [] }

/-- Server-to-client frames.  Optional fields are keys the corresponding
dict literal may omit: for message_ack the source builds five distinct
dict shapes, so server_message_id, duplicated, timestamp and error are
options that are none exactly when the source omits the key. -/
inductive ServerFrame where
  | message_error (error : String) (status : String)
  | message_ack (message_id : MsgId) (status : String)
      (server_message_id : Option MsgId) (duplicated : Option Bool)
      (timestamp : Option Nat) (error : Option String)
  | new_message (conversation_id : ConvId) (message : MsgJson)
  | typing (user_id : UserId) (conversation_id : ConvId) (is_typing : Bool)
  | read (message_id : MsgId) (reader_id : UserId) (read_at : Nat)
  | presence (conversation_id : ConvId) (user_id : UserId) (is_online : Bool)
deriving Repr, DecidableEq

/-- Reified side effects of a handler: a personal send to one socket, a call
to ConnectionManager.broadcast_to_conversation with its two exclusion
arguments, or closing the socket. -/
inductive OutEvent where
  | personal (frame : ServerFrame) (dest : ConnId)
  | broadcast (frame : ServerFrame) (conversation_id : ConvId)
      (exclude_websocket : Option ConnId) (exclude_user_id : Option UserId)
  | closeConn (code : Nat) (reason : String) (conn : ConnId)
deriving Repr, DecidableEq

/-- Whether an event closes the connection (the websocket handlers close
only in the pre-registration rejection paths, never inside
handle_send_message). -/
def OutEvent.isClose : OutEvent → Bool
  | .closeConn _ _ _ => true
  | _ => false

/-- Outcome of the commit inside the non-duplicate persist path: ok, or an
exception carrying its str(e) description. -/
inductive PersistOutcome where
  | ok
  | err (e : String)
deriving Repr, DecidableEq

/-- Row inserted by the non-duplicate path of handle_send_message: the
client-supplied id is used as the primary key, message_type defaults to
"text" via data.get, and the column defaults fill created_at, updated_at
and edited. -/
def mkMessage (mid : MsgId) (conv : ConvId) (sender : UserId)
    (content : String) (f : SendFrame) (now : Nat) : Message :=
  { id := mid
    conversation_id := conv
    sender_id := sender
    content := content
    message_type := f.message_type.getD ("text")
    reply_to := f.reply_to
    message_metadata := f.message_metadata
    created_at := now
    updated_at := now
    edited := false }

/-- Embedding of handle_send_message (backend/main.py).  Returns the
database state after the handler and the list of emitted side effects in
program order. -/
def handle_send_message (ws : ConnId) (f : SendFrame) (userId : UserId)
    (conversation_id : ConvId) (db : Db) (now : Nat)
    (persist : PersistOutcome) : Db × List OutEvent :=
  match f.message_id with
  | none =>
      (db, [.personal (.message_error ("message_id required") ("error")) ws])
  | some mid =>
      match contentVal f with
      | none =>
          (db, [.personal
            (.message_ack mid ("error") none none none (some ("content required"))) ws])
      | some content =>
          match db.findMessage mid with
          | some existing =>
              (db,
               [.personal (.message_ack mid ("success") (some existing.id)
                  (some true) none none) ws,
                .broadcast (.new_message conversation_id (msgJsonOf existing))
                  conversation_id none (some userId)])
          | none =>
              match persist with
              | .err e =>
                  (db, [.personal
                    (.message_ack mid ("error") none none none (some e)) ws])
              | .ok =>
                  let m := mkMessage mid conversation_id userId content f now
                  let db2 : Db :=
                    { messages := db.messages ++ [m]
                      conv_updated_at :=
                        touchConversation db.conv_updated_at conversation_id now
                      message_reads := db.message_reads }
                  (db2,
                   [.personal (.message_ack mid ("success") (some m.id) none
                      (some m.created_at) none) ws,
                    .broadcast (.new_message conversation_id (msgJsonOf m))
                      conversation_id none (some userId)])

/-- Embedding of the typing branch of the websocket receive loop: relay
to the conversation, excluding only the originating socket. -/
def typingHandler (ws : ConnId) (userId : UserId) (conversation_id : ConvId)
    (is_typing : Bool) : List OutEvent :=
  [.broadcast (.typing userId conversation_id is_typing)
    conversation_id (some ws) none]

/-- Embedding of the read_receipt branch of the websocket receive loop:
insert a message_reads row if the (message id, user id) pair has none yet,
then relay a read event carrying the current time, excluding only the
originating socket. -/
def readReceiptHandler (ws : ConnId) (userId : UserId)
    (conversation_id : ConvId) (message_id : MsgId) (db : Db) (now : Nat) :
    Db × List OutEvent :=
  let db2 :=
    if db.message_reads.any (fun p => p.1 == message_id && p.2.1 == userId)
    then db
    else { db with message_reads := db.message_reads ++ [(message_id, userId, now)] }
  (db2,
   [.broadcast (.read message_id userId now) conversation_id (some ws) none])

/-- Embedding of ConnectionManager (backend/websocket_manager.py): the three
indices, with the two defaultdicts modelled as total functions into Finset
(a key that was never inserted maps to the empty set) and the plain dict
user_connections as a function into Option. -/
@[ext]
structure Registry where
  active_connections : ConvId → Finset ConnId
  user_connections : ConnId → Option UserId
  user_websockets : UserId → Finset ConnId

/-- Registry state of a freshly constructed ConnectionManager. -/
def Registry.empty : Registry :=
  { active_connections := fun _ => ∅
    user_connections := fun _ => none
    user_websockets := fun _ => ∅ }

/-- Index updates performed by ConnectionManager.connect. -/
def Registry.connectReg (r : Registry) (ws : ConnId) (conversation_id : ConvId)
    (user_id : UserId) : Registry :=
  { active_connections := fun c =>
      if c = conversation_id then insert ws (r.active_connections c)
      else r.active_connections c
    user_connections := fun w =>
      if w = ws then some user_id else r.user_connections w
    user_websockets := fun u =>
      if u = user_id then insert ws (r.user_websockets u)
      else r.user_websockets u }

/-- Full effect of ConnectionManager.connect: the index updates together
with the broadcast_presence call (an online presence event for the
conversation, excluding the connecting socket). -/
def Registry.connectRun (r : Registry) (ws : ConnId) (conversation_id : ConvId)
    (user_id : UserId) : Registry × List OutEvent :=
  (r.connectReg ws conversation_id user_id,
   [.broadcast (.presence conversation_id user_id true)
      conversation_id (some ws) none])

/-- Index updates performed by ConnectionManager.disconnect: discard the
socket from the conversation entry, and if it is still recorded in
user_connections, discard it from its user's set and drop the record. -/
def Registry.disconnectReg (r : Registry) (ws : ConnId)
    (conversation_id : ConvId) : Registry :=
  let ac := fun c =>
    if c = conversation_id then (r.active_connections c).erase ws
    else r.active_connections c
  match r.user_connections ws with
  | none => { r with active_connections := ac }
  | some u =>
      { active_connections := ac
        user_connections := fun w => if w = ws then none else r.user_connections w
        user_websockets := fun v =>
          if v = u then (r.user_websockets v).erase ws else r.user_websockets v }

/-- Full effect of ConnectionManager.disconnect: it performs the index
updates and emits no event at all (in particular no offline presence). -/
def Registry.disconnectRun (r : Registry) (ws : ConnId)
    (conversation_id : ConvId) : Registry × List OutEvent :=
  (r.disconnectReg ws conversation_id, [])

/-- Set of sockets a broadcast_to_conversation call attempts to deliver to:
the conversation's current connection set minus the explicitly excluded
socket and, when exclude_user_id is given, every socket whose recorded
user equals it. -/
def Registry.recipients (r : Registry) (conversation_id : ConvId)
    (exclude_websocket : Option ConnId) (exclude_user_id : Option UserId) :
    Finset ConnId :=
  (r.active_connections conversation_id).filter (fun c =>
    some c ≠ exclude_websocket ∧
    ¬ (exclude_user_id.isSome ∧ r.user_connections c = exclude_user_id))

/-- Embedding of ConnectionManager.broadcast_to_conversation with transport
failures injected through the fails predicate: each non-excluded recipient
is attempted, failures are collected instead of raised, and after the
fan-out pass every failed socket is disconnected.  Returns the set of
sockets whose send succeeded and the registry after cleanup. -/
def Registry.broadcastRun (r : Registry) (conversation_id : ConvId)
    (exclude_websocket : Option ConnId) (exclude_user_id : Option UserId)
    (fails : ConnId → Bool) : Finset ConnId × Registry :=
  let recips := r.recipients conversation_id exclude_websocket exclude_user_id
  let delivered := recips.filter (fun c => fails c = false)
  let failed := recips.filter (fun c => fails c = true)
  (delivered,
   (failed.sort (· ≤ ·)).foldl (fun s c => s.disconnectReg c conversation_id) r)

/-- Registry states reachable by completed connect/disconnect operations,
where each socket ws has a fixed bound conversation convOf ws and a fixed
owning user userOf ws (a Connection binds both for its lifetime). -/
inductive Reachable (convOf : ConnId → ConvId) (userOf : ConnId → UserId) :
    Registry → Prop where
  | empty : Reachable convOf userOf Registry.empty
  | connectStep {r : Registry} (ws : ConnId) :
      Reachable convOf userOf r →
      Reachable convOf userOf (r.connectReg ws (convOf ws) (userOf ws))
  | disconnectStep {r : Registry} (ws : ConnId) :
      Reachable convOf userOf r →
      Reachable convOf userOf (r.disconnectReg ws (convOf ws))
  | broadcastStep {r : Registry} (conv : ConvId) (exW : Option ConnId)
      (exU : Option UserId) (fails : ConnId → Bool) :
      Reachable convOf userOf r →
      Reachable convOf userOf (r.broadcastRun conv exW exU fails).2

/-- Well-formedness of the three indices relative to each socket's bound
conversation and owning user: sockets only ever sit in their own
conversation and user entries, user_connections records exactly the
registered sockets, and the three indices agree on membership. -/
structure Registry.Inv (convOf : ConnId → ConvId) (userOf : ConnId → UserId)
    (r : Registry) : Prop where
  conv_key : ∀ ws c, ws ∈ r.active_connections c → c = convOf ws
  user_key : ∀ ws u, ws ∈ r.user_websockets u → u = userOf ws
  uc_val : ∀ ws, r.user_connections ws = none ∨
    r.user_connections ws = some (userOf ws)
  active_iff_uc : ∀ ws, ws ∈ r.active_connections (convOf ws) ↔
    r.user_connections ws = some (userOf ws)
  active_iff_uw : ∀ ws, ws ∈ r.active_connections (convOf ws) ↔
    ws ∈ r.user_websockets (userOf ws)

theorem Registry.connectReg_active (r : Registry) (ws : ConnId)
    (conversation_id : ConvId) (user_id : UserId) (c : ConvId) :
    (r.connectReg ws conversation_id user_id).active_connections c =
      if c = conversation_id then insert ws (r.active_connections c)
      else r.active_connections c := rfl

theorem Registry.connectReg_uc (r : Registry) (ws : ConnId)
    (conversation_id : ConvId) (user_id : UserId) (w : ConnId) :
    (r.connectReg ws conversation_id user_id).user_connections w =
      if w = ws then some user_id else r.user_connections w := rfl

theorem Registry.connectReg_uw (r : Registry) (ws : ConnId)
    (conversation_id : ConvId) (user_id : UserId) (v : UserId) :
    (r.connectReg ws conversation_id user_id).user_websockets v =
      if v = user_id then insert ws (r.user_websockets v)
      else r.user_websockets v := rfl

theorem Registry.disconnectReg_active (r : Registry) (ws : ConnId)
    (conversation_id : ConvId) (c : ConvId) :
    (r.disconnectReg ws conversation_id).active_connections c =
      if c = conversation_id then (r.active_connections c).erase ws
      else r.active_connections c := by
  unfold Registry.disconnectReg
  cases r.user_connections ws <;> rfl

theorem Registry.disconnectReg_uc (r : Registry) (ws : ConnId)
    (conversation_id : ConvId) (w : ConnId) :
    (r.disconnectReg ws conversation_id).user_connections w =
      if w = ws then none else r.user_connections w := by
  unfold Registry.disconnectReg
  rcases h : r.user_connections ws with _ | u
  · by_cases hw : w = ws
    · subst hw; simp [h]
    · simp [hw]
  · rfl

theorem Registry.disconnectReg_uw_none {r : Registry} {ws : ConnId}
    (conversation_id : ConvId) (h : r.user_connections ws = none) :
    (r.disconnectReg ws conversation_id).user_websockets =
      r.user_websockets := by
  unfold Registry.disconnectReg
  rw [h]

theorem Registry.disconnectReg_uw_some {r : Registry} {ws : ConnId}
    {u : UserId} (conversation_id : ConvId)
    (h : r.user_connections ws = some u) (v : UserId) :
    (r.disconnectReg ws conversation_id).user_websockets v =
      if v = u then (r.user_websockets v).erase ws
      else r.user_websockets v := by
  unfold Registry.disconnectReg
  rw [h]

theorem Registry.disconnectReg_uw_subset (r : Registry) (ws : ConnId)
    (conversation_id : ConvId) (v : UserId) :
    (r.disconnectReg ws conversation_id).user_websockets v ⊆
      r.user_websockets v := by
  rcases h : r.user_connections ws with _ | u
  · rw [Registry.disconnectReg_uw_none conversation_id h]
  · rw [Registry.disconnectReg_uw_some conversation_id h]
    by_cases hv : v = u
    · rw [if_pos hv]; exact Finset.erase_subset _ _
    · rw [if_neg hv]

theorem Registry.disconnectReg_uw_other {r : Registry} {ws w : ConnId}
    (conversation_id : ConvId) (hw : w ≠ ws) (v : UserId) :
    (w ∈ (r.disconnectReg ws conversation_id).user_websockets v ↔
      w ∈ r.user_websockets v) := by
  rcases h : r.user_connections ws with _ | u
  · rw [Registry.disconnectReg_uw_none conversation_id h]
  · rw [Registry.disconnectReg_uw_some conversation_id h]
    by_cases hv : v = u
    · rw [if_pos hv, Finset.mem_erase]
      exact and_iff_right hw
    · rw [if_neg hv]

theorem inv_empty (convOf : ConnId → ConvId) (userOf : ConnId → UserId) :
    Registry.Inv convOf userOf Registry.empty := by
  refine ⟨?_, ?_, ?_, ?_, ?_⟩ <;> intros <;> simp_all [Registry.empty]

theorem inv_connect {convOf : ConnId → ConvId} {userOf : ConnId → UserId}
    {r : Registry} (h : Registry.Inv convOf userOf r) (ws0 : ConnId) :
    Registry.Inv convOf userOf (r.connectReg ws0 (convOf ws0) (userOf ws0)) := by
  obtain ⟨hck, huk, huc, hiuc, hiuw⟩ := h
  refine ⟨?_, ?_, ?_, ?_, ?_⟩
  · intro ws c hmem
    rw [Registry.connectReg_active] at hmem
    by_cases hc : c = convOf ws0
    · rw [if_pos hc, Finset.mem_insert] at hmem
      rcases hmem with rfl | hmem
      · exact hc
      · exact hck ws c hmem
    · rw [if_neg hc] at hmem
      exact hck ws c hmem
  · intro ws u hmem
    rw [Registry.connectReg_uw] at hmem
    by_cases hu : u = userOf ws0
    · rw [if_pos hu, Finset.mem_insert] at hmem
      rcases hmem with rfl | hmem
      · exact hu
      · exact huk ws u hmem
    · rw [if_neg hu] at hmem
      exact huk ws u hmem
  · intro ws
    rw [Registry.connectReg_uc]
    by_cases hw : ws = ws0
    · subst hw
      simp
    · rw [if_neg hw]
      exact huc ws
  · intro ws
    rw [Registry.connectReg_active, Registry.connectReg_uc]
    by_cases hw : ws = ws0
    · subst hw
      simp
    · rw [if_neg hw]
      by_cases hc : convOf ws = convOf ws0
      · rw [if_pos hc, Finset.mem_insert, or_iff_right hw]
        exact hiuc ws
      · rw [if_neg hc]
        exact hiuc ws
  · intro ws
    rw [Registry.connectReg_active, Registry.connectReg_uw]
    by_cases hw : ws = ws0
    · subst hw
      simp
    · have lhs : ws ∈ (if convOf ws = convOf ws0
          then insert ws0 (r.active_connections (convOf ws))
          else r.active_connections (convOf ws)) ↔
          ws ∈ r.active_connections (convOf ws) := by
        by_cases hc : convOf ws = convOf ws0
        · rw [if_pos hc, Finset.mem_insert, or_iff_right hw]
        · rw [if_neg hc]
      have rhs : ws ∈ (if userOf ws = userOf ws0
          then insert ws0 (r.user_websockets (userOf ws))
          else r.user_websockets (userOf ws)) ↔
          ws ∈ r.user_websockets (userOf ws) := by
        by_cases hu : userOf ws = userOf ws0
        · rw [if_pos hu, Finset.mem_insert, or_iff_right hw]
        · rw [if_neg hu]
      rw [lhs, rhs]
      exact hiuw ws

theorem inv_disconnect {convOf : ConnId → ConvId} {userOf : ConnId → UserId}
    {r : Registry} (h : Registry.Inv convOf userOf r) (ws0 : ConnId) :
    Registry.Inv convOf userOf (r.disconnectReg ws0 (convOf ws0)) := by
  obtain ⟨hck, huk, huc, hiuc, hiuw⟩ := h
  refine ⟨?_, ?_, ?_, ?_, ?_⟩
  · intro ws c hmem
    rw [Registry.disconnectReg_active] at hmem
    by_cases hc : c = convOf ws0
    · rw [if_pos hc] at hmem
      exact hck ws c (Finset.mem_of_mem_erase hmem)
    · rw [if_neg hc] at hmem
      exact hck ws c hmem
  · intro ws u hmem
    exact huk ws u (Registry.disconnectReg_uw_subset r ws0 (convOf ws0) u hmem)
  · intro ws
    rw [Registry.disconnectReg_uc]
    by_cases hw : ws = ws0
    · rw [if_pos hw]
      exact Or.inl rfl
    · rw [if_neg hw]
      exact huc ws
  · intro ws
    rw [Registry.disconnectReg_active, Registry.disconnectReg_uc]
    by_cases hw : ws = ws0
    · subst hw
      rw [if_pos rfl, if_pos rfl]
      simp
    · rw [if_neg hw]
      have lhs : ws ∈ (if convOf ws = convOf ws0
          then (r.active_connections (convOf ws)).erase ws0
          else r.active_connections (convOf ws)) ↔
          ws ∈ r.active_connections (convOf ws) := by
        by_cases hc : convOf ws = convOf ws0
        · rw [if_pos hc, Finset.mem_erase]
          exact and_iff_right hw
        · rw [if_neg hc]
      rw [lhs]
      exact hiuc ws
  · intro ws
    rw [Registry.disconnectReg_active]
    by_cases hw : ws = ws0
    · subst hw
      rw [if_pos rfl]
      simp only [Finset.mem_erase, ne_eq, not_true_eq_false, false_and,
        false_iff]
      rcases huc ws with h0 | h0
      · rw [Registry.disconnectReg_uw_none (convOf ws) h0]
        intro hmem
        exact absurd ((hiuc ws).mp ((hiuw ws).mpr hmem)) (by simp [h0])
      · rw [Registry.disconnectReg_uw_some (convOf ws) h0, if_pos rfl]
        exact Finset.not_mem_erase ws _
    · have lhs : ws ∈ (if convOf ws = convOf ws0
          then (r.active_connections (convOf ws)).erase ws0
          else r.active_connections (convOf ws)) ↔
          ws ∈ r.active_connections (convOf ws) := by
        by_cases hc : convOf ws = convOf ws0
        · rw [if_pos hc, Finset.mem_erase]
          exact and_iff_right hw
        · rw [if_neg hc]
      rw [lhs, Registry.disconnectReg_uw_other (convOf ws0) hw]
      exact hiuw ws

theorem inv_fold_disconnect {convOf : ConnId → ConvId}
    {userOf : ConnId → UserId} {conv : ConvId} :
    ∀ (l : List ConnId) (r : Registry), l.Nodup →
      (∀ x ∈ l, x ∈ r.active_connections conv) →
      Registry.Inv convOf userOf r →
      Registry.Inv convOf userOf
        (l.foldl (fun s x => s.disconnectReg x conv) r)
  | [], _, _, _, h => h
  | x :: t, r, hnd, hmem, h => by
      have hx : x ∈ r.active_connections conv := hmem x (List.mem_cons_self x t)
      have hcv : conv = convOf x := h.conv_key x conv hx
      have h2 : Registry.Inv convOf userOf (r.disconnectReg x conv) := by
        rw [hcv]
        exact inv_disconnect h x
      have hnd2 := List.nodup_cons.mp hnd
      refine inv_fold_disconnect t _ hnd2.2 ?_ h2
      intro y hy
      rw [Registry.disconnectReg_active, if_pos rfl, Finset.mem_erase]
      refine ⟨?_, hmem y (List.mem_cons_of_mem x hy)⟩
      intro hyx
      exact hnd2.1 (hyx ▸ hy)

theorem inv_reachable {convOf : ConnId → ConvId} {userOf : ConnId → UserId}
    {r : Registry} (h : Reachable convOf userOf r) :
    Registry.Inv convOf userOf r := by
  induction h with
  | empty => exact inv_empty convOf userOf
  | connectStep ws _ ih => exact inv_connect ih ws
  | disconnectStep ws _ ih => exact inv_disconnect ih ws
  | broadcastStep conv exW exU fails _ ih =>
      refine inv_fold_disconnect _ _ (Finset.sort_nodup _ _) ?_ ih
      intro x hx
      rw [Finset.mem_sort, Finset.mem_filter] at hx
      have hx2 := hx.1
      unfold Registry.recipients at hx2
      exact (Finset.mem_filter.mp hx2).1

theorem mem_recipients {r : Registry} {conv : ConvId} {exW : Option ConnId}
    {exU : Option UserId} {c : ConnId} :
    c ∈ r.recipients conv exW exU ↔
      c ∈ r.active_connections conv ∧ some c ≠ exW ∧
        ¬ (exU.isSome ∧ r.user_connections c = exU) := by
  unfold Registry.recipients
  rw [Finset.mem_filter]

/-- Recipient set of a relay that excludes only the originating socket:
exactly the conversation's connections other than that socket. -/
theorem recipients_exclude_ws_only (r : Registry) (conv : ConvId)
    (ws : ConnId) :
    r.recipients conv (some ws) none =
      (r.active_connections conv).erase ws := by
  ext c
  rw [mem_recipients, Finset.mem_erase]
  simp only [ne_eq, Option.some.injEq, Option.isSome_none, Bool.false_eq_true,
    false_and, not_false_eq_true, and_true]
  exact and_comm

/-- Full removal of a socket from the registry state: absent from the
conversation entry, from user_connections, and from every user's set. -/
def removedFrom (r : Registry) (conversation_id : ConvId) (c : ConnId) : Prop :=
  c ∉ r.active_connections conversation_id ∧
  r.user_connections c = none ∧
  ∀ v, c ∉ r.user_websockets v

theorem removed_preserved {r : Registry} {conv : ConvId} {c : ConnId}
    (h : removedFrom r conv c) (x : ConnId) :
    removedFrom (r.disconnectReg x conv) conv c := by
  obtain ⟨ha, hu, hw⟩ := h
  refine ⟨?_, ?_, ?_⟩
  · rw [Registry.disconnectReg_active, if_pos rfl]
    intro hmem
    exact ha (Finset.mem_of_mem_erase hmem)
  · rw [Registry.disconnectReg_uc]
    by_cases hcx : c = x
    · rw [if_pos hcx]
    · rw [if_neg hcx]; exact hu
  · intro v hmem
    exact hw v (Registry.disconnectReg_uw_subset r x conv v hmem)

theorem removed_fold {conv : ConvId} {c : ConnId} :
    ∀ (l : List ConnId) (r : Registry), removedFrom r conv c →
      removedFrom (l.foldl (fun s x => s.disconnectReg x conv) r) conv c
  | [], _, h => h
  | x :: t, r, h => removed_fold t _ (removed_preserved h x)

theorem disconnect_self_removes {r : Registry} {conv : ConvId} {c : ConnId}
    {u0 : UserId} (huc : r.user_connections c = some u0)
    (how : ∀ v, v ≠ u0 → c ∉ r.user_websockets v) :
    removedFrom (r.disconnectReg c conv) conv c := by
  refine ⟨?_, ?_, ?_⟩
  · rw [Registry.disconnectReg_active, if_pos rfl]
    exact Finset.not_mem_erase c _
  · rw [Registry.disconnectReg_uc, if_pos rfl]
  · intro v
    rw [Registry.disconnectReg_uw_some conv huc]
    by_cases hv : v = u0
    · rw [if_pos hv]
      exact Finset.not_mem_erase c _
    · rw [if_neg hv]
      exact how v hv

theorem fold_removes {conv : ConvId} {c : ConnId} {u0 : UserId} :
    ∀ (l : List ConnId) (r : Registry), c ∈ l →
      r.user_connections c = some u0 →
      (∀ v, v ≠ u0 → c ∉ r.user_websockets v) →
      removedFrom (l.foldl (fun s x => s.disconnectReg x conv) r) conv c
  | [], _, h, _, _ => absurd h (List.not_mem_nil c)
  | x :: t, r, hmem, huc, how => by
      by_cases hcx : c = x
      · subst hcx
        exact removed_fold t _ (disconnect_self_removes huc how)
      · have hmem2 : c ∈ t := by
          rcases List.mem_cons.mp hmem with h1 | h1
          · exact absurd h1 hcx
          · exact h1
        have huc2 : (r.disconnectReg x conv).user_connections c = some u0 := by
          rw [Registry.disconnectReg_uc, if_neg hcx]
          exact huc
        have how2 : ∀ v, v ≠ u0 →
            c ∉ (r.disconnectReg x conv).user_websockets v := by
          intro v hv hmem3
          exact how v hv (Registry.disconnectReg_uw_subset r x conv v hmem3)
        exact fold_removes t _ hmem2 huc2 how2

theorem uc_of_mem_active {convOf : ConnId → ConvId} {userOf : ConnId → UserId}
    {r : Registry} (h : Registry.Inv convOf userOf r) {c : ConnId}
    {conv : ConvId} (hc : c ∈ r.active_connections conv) :
    r.user_connections c = some (userOf c) := by
  have hconv := h.conv_key c conv hc
  exact (h.active_iff_uc c).mp (hconv ▸ hc)

theorem not_mem_uw_of_ne {convOf : ConnId → ConvId} {userOf : ConnId → UserId}
    {r : Registry} (h : Registry.Inv convOf userOf r) (c : ConnId)
    (v : UserId) (hv : v ≠ userOf c) : c ∉ r.user_websockets v := by
  intro hmem
  exact hv (h.user_key c v hmem)

theorem hsm_missing_id {ws : ConnId} {f : SendFrame} {u : UserId}
    {conv : ConvId} {db : Db} {now : Nat} {p : PersistOutcome}
    (h : f.message_id = none) :
    handle_send_message ws f u conv db now p =
      (db, [.personal (.message_error ("message_id required") ("error")) ws]) := by
  unfold handle_send_message
  rw [h]

theorem hsm_missing_content {ws : ConnId} {f : SendFrame} {u : UserId}
    {conv : ConvId} {db : Db} {now : Nat} {p : PersistOutcome} {mid : MsgId}
    (hm : f.message_id = some mid) (hc : contentVal f = none) :
    handle_send_message ws f u conv db now p =
      (db, [.personal (.message_ack mid ("error") none none none
        (some ("content required"))) ws]) := by
  unfold handle_send_message
  simp only [hm, hc]

theorem hsm_duplicate {ws : ConnId} {f : SendFrame} {u : UserId}
    {conv : ConvId} {db : Db} {now : Nat} {p : PersistOutcome} {mid : MsgId}
    {content : String} {existing : Message}
    (hm : f.message_id = some mid) (hc : contentVal f = some content)
    (hf : db.findMessage mid = some existing) :
    handle_send_message ws f u conv db now p =
      (db, [.personal (.message_ack mid ("success") (some existing.id)
              (some true) none none) ws,
            .broadcast (.new_message conv (msgJsonOf existing))
              conv none (some u)]) := by
  unfold handle_send_message
  simp only [hm, hc, hf]

theorem hsm_persist_error {ws : ConnId} {f : SendFrame} {u : UserId}
    {conv : ConvId} {db : Db} {now : Nat} {mid : MsgId} {content : String}
    {e : String}
    (hm : f.message_id = some mid) (hc : contentVal f = some content)
    (hf : db.findMessage mid = none) :
    handle_send_message ws f u conv db now (.err e) =
      (db, [.personal (.message_ack mid ("error") none none none (some e)) ws]) := by
  unfold handle_send_message
  simp only [hm, hc, hf]

theorem hsm_success {ws : ConnId} {f : SendFrame} {u : UserId}
    {conv : ConvId} {db : Db} {now : Nat} {mid : MsgId} {content : String}
    (hm : f.message_id = some mid) (hc : contentVal f = some content)
    (hf : db.findMessage mid = none) :
    handle_send_message ws f u conv db now .ok =
      ({ messages := db.messages ++ [mkMessage mid conv u content f now]
         conv_updated_at := touchConversation db.conv_updated_at conv now
         message_reads := db.message_reads },
       [.personal (.message_ack mid ("success") (some mid) none
          (some now) none) ws,
        .broadcast (.new_message conv (msgJsonOf (mkMessage mid conv u content f now)))
          conv none (some u)]) := by
  unfold handle_send_message
  simp only [hm, hc, hf]
  rfl

theorem disconnect_noop {r : Registry} {ws : ConnId} {conv : ConvId}
    (ha : ws ∉ r.active_connections conv)
    (hu : r.user_connections ws = none) :
    r.disconnectReg ws conv = r := by
  apply Registry.ext
  · funext c
    rw [Registry.disconnectReg_active]
    by_cases hc : c = conv
    · subst hc
      rw [if_pos rfl]
      exact Finset.erase_eq_of_not_mem ha
    · rw [if_neg hc]
  · funext w
    rw [Registry.disconnectReg_uc]
    by_cases hw : w = ws
    · subst hw
      rw [if_pos rfl]
      exact hu.symm
    · rw [if_neg hw]
  · exact Registry.disconnectReg_uw_none conv hu

theorem broadcastRun_fst (r : Registry) (conv : ConvId) (exW : Option ConnId)
    (exU : Option UserId) (fails : ConnId → Bool) :
    (r.broadcastRun conv exW exU fails).1 =
      (r.recipients conv exW exU).filter (fun c => fails c = false) := rfl

theorem broadcastRun_snd (r : Registry) (conv : ConvId) (exW : Option ConnId)
    (exU : Option UserId) (fails : ConnId → Bool) :
    (r.broadcastRun conv exW exU fails).2 =
      (((r.recipients conv exW exU).filter (fun c => fails c = true)).sort (· ≤ ·)).foldl
        (fun s c => s.disconnectReg c conv) r := rfl

/-- C3: in every registry state reachable by a completed sequence of connect
and disconnect operations, a connection is in the conversation index entry
of its bound conversation iff it is in the user index of its owning user;
one further connect or one further disconnect preserves the equivalence,
and absence from one index is equivalent to absence from the other
(removal from one implies removal from the other). -/
theorem registry_invariant_iff (convOf : ConnId → ConvId)
    (userOf : ConnId → UserId) (r : Registry)
    (h : Reachable convOf userOf r) (ws ws2 : ConnId) :
    ((ws ∈ r.active_connections (convOf ws)) ↔
      ws ∈ r.user_websockets (userOf ws))
    ∧ ((ws ∈ (r.connectReg ws2 (convOf ws2) (userOf ws2)).active_connections
          (convOf ws)) ↔
        ws ∈ (r.connectReg ws2 (convOf ws2) (userOf ws2)).user_websockets
          (userOf ws))
    ∧ ((ws ∈ (r.disconnectReg ws2 (convOf ws2)).active_connections
          (convOf ws)) ↔
        ws ∈ (r.disconnectReg ws2 (convOf ws2)).user_websockets (userOf ws))
    ∧ ((ws ∉ r.active_connections (convOf ws)) ↔
        ws ∉ r.user_websockets (userOf ws)) := by
  have hinv := inv_reachable h
  exact ⟨hinv.active_iff_uw ws, (inv_connect hinv ws2).active_iff_uw ws,
    (inv_disconnect hinv ws2).active_iff_uw ws,
    not_congr (hinv.active_iff_uw ws)⟩

/-- Witness for C3 at the registry holding one connection (socket 1, user 1,
conversation 0). -/
theorem registry_invariant_iff_witness :
    ((1 : ConnId) ∈ (Registry.empty.connectReg 1 0 1).active_connections 0) ↔
      (1 : ConnId) ∈ (Registry.empty.connectReg 1 0 1).user_websockets 1 :=
  (registry_invariant_iff (fun _ => 0) (fun w => w) _
    (Reachable.connectStep 1 Reachable.empty) 1 2).1

/-- C4: for a broadcast over a reachable registry with transport failures
injected by the fails predicate, the delivered set is exactly the
non-excluded recipients whose send succeeded (so one failing recipient
never blocks the others, and no error reaches the caller: broadcastRun is
a total function), and after the fan-out pass every failed recipient has
been removed from the conversation index, from user_connections and from
every user index entry. -/
theorem broadcast_partial_failure_isolation (convOf : ConnId → ConvId)
    (userOf : ConnId → UserId) (r : Registry)
    (h : Reachable convOf userOf r) (conv : ConvId) (exW : Option ConnId)
    (exU : Option UserId) (fails : ConnId → Bool) (c : ConnId) (v : UserId) :
    ((r.broadcastRun conv exW exU fails).1 =
      (r.recipients conv exW exU).filter (fun x => fails x = false))
    ∧ (c ∈ r.recipients conv exW exU → fails c = false →
        c ∈ (r.broadcastRun conv exW exU fails).1)
    ∧ (c ∈ r.recipients conv exW exU → fails c = true →
        c ∉ (r.broadcastRun conv exW exU fails).2.active_connections conv
        ∧ (r.broadcastRun conv exW exU fails).2.user_connections c = none
        ∧ c ∉ (r.broadcastRun conv exW exU fails).2.user_websockets v) := by
  have hinv := inv_reachable h
  refine ⟨broadcastRun_fst r conv exW exU fails, ?_, ?_⟩
  · intro hrec hok
    rw [broadcastRun_fst, Finset.mem_filter]
    exact ⟨hrec, hok⟩
  · intro hrec hfail
    have hact : c ∈ r.active_connections conv := (mem_recipients.mp hrec).1
    have huc : r.user_connections c = some (userOf c) :=
      uc_of_mem_active hinv hact
    have how : ∀ w, w ≠ userOf c → c ∉ r.user_websockets w :=
      fun w hw => not_mem_uw_of_ne hinv c w hw
    have hmem : c ∈ ((r.recipients conv exW exU).filter
        (fun x => fails x = true)).sort (· ≤ ·) := by
      rw [Finset.mem_sort, Finset.mem_filter]
      exact ⟨hrec, hfail⟩
    have hrem := @fold_removes conv c (userOf c) _ r hmem huc how
    rw [broadcastRun_snd]
    exact ⟨hrem.1, hrem.2.1, hrem.2.2 v⟩

/-- Witness for C4: conversation 0 holds sockets 1 and 2 (users 1 and 2);
the send to socket 2 fails, socket 1 still receives, and socket 2 is
removed from the conversation index afterwards. -/
theorem broadcast_partial_failure_isolation_witness :
    ((1 : ConnId) ∈ (((Registry.empty.connectReg 1 0 1).connectReg 2 0 2).broadcastRun
        0 none none (fun c => decide (c = 2))).1)
    ∧ ((2 : ConnId) ∉ (((Registry.empty.connectReg 1 0 1).connectReg 2 0 2).broadcastRun
        0 none none (fun c => decide (c = 2))).2.active_connections 0) :=
  ⟨(broadcast_partial_failure_isolation (fun _ => 0) (fun w => w) _
      (Reachable.connectStep 2 (Reachable.connectStep 1 Reachable.empty))
      0 none none (fun c => decide (c = 2)) 1 1).2.1 (by decide) (by decide),
   ((broadcast_partial_failure_isolation (fun _ => 0) (fun w => w) _
      (Reachable.connectStep 2 (Reachable.connectStep 1 Reachable.empty))
      0 none none (fun c => decide (c = 2)) 2 2).2.2 (by decide) (by decide)).1⟩

/-- C9: disconnect removes the socket from both the conversation index and
the user index; applied to an already-removed socket it returns the
registry unchanged (a no-op of a total function, so no error is raised);
a second disconnect of the same socket changes nothing; disconnect emits
no event at all — in particular no offline presence — while connect
broadcasts an online presence event to the conversation excluding the
connecting socket. -/
theorem disconnect_removal_idempotent_no_presence (convOf : ConnId → ConvId)
    (userOf : ConnId → UserId) (r : Registry)
    (h : Reachable convOf userOf r) (ws : ConnId) (conv : ConvId)
    (u u2 : UserId) :
    ((r.disconnectRun ws conv).2 = [])
    ∧ ((r.connectRun ws conv u).2 =
        [.broadcast (.presence conv u true) conv (some ws) none])
    ∧ (ws ∉ (r.disconnectReg ws (convOf ws)).active_connections (convOf ws))
    ∧ ((r.disconnectReg ws (convOf ws)).user_connections ws = none)
    ∧ (ws ∉ (r.disconnectReg ws (convOf ws)).user_websockets u2)
    ∧ (ws ∉ r.active_connections conv → r.user_connections ws = none →
        r.disconnectReg ws conv = r)
    ∧ ((r.disconnectReg ws (convOf ws)).disconnectReg ws (convOf ws) =
        r.disconnectReg ws (convOf ws)) := by
  have hinv := inv_reachable h
  have h3 : ws ∉ (r.disconnectReg ws (convOf ws)).active_connections
      (convOf ws) := by
    rw [Registry.disconnectReg_active, if_pos rfl]
    exact Finset.not_mem_erase ws _
  have h4 : (r.disconnectReg ws (convOf ws)).user_connections ws = none := by
    rw [Registry.disconnectReg_uc, if_pos rfl]
  have h5 : ∀ v, ws ∉ (r.disconnectReg ws (convOf ws)).user_websockets v := by
    intro v
    rcases hinv.uc_val ws with h0 | h0
    · rw [Registry.disconnectReg_uw_none (convOf ws) h0]
      by_cases hv : v = userOf ws
      · subst hv
        intro hmem
        have hx := (hinv.active_iff_uc ws).mp ((hinv.active_iff_uw ws).mpr hmem)
        rw [h0] at hx
        exact Option.noConfusion hx
      · exact not_mem_uw_of_ne hinv ws v hv
    · rw [Registry.disconnectReg_uw_some (convOf ws) h0]
      by_cases hv : v = userOf ws
      · rw [if_pos hv]
        exact Finset.not_mem_erase ws _
      · rw [if_neg hv]
        exact not_mem_uw_of_ne hinv ws v hv
  exact ⟨rfl, rfl, h3, h4, h5 u2, fun ha hu => disconnect_noop ha hu,
    disconnect_noop h3 h4⟩

/-- Witness for C9: disconnecting socket 1 from the one-connection registry
empties both index entries. -/
theorem disconnect_removal_idempotent_no_presence_witness :
    ((1 : ConnId) ∉ ((Registry.empty.connectReg 1 0 1).disconnectReg 1
      0).active_connections 0)
    ∧ ((Registry.empty.connectReg 1 0 1).disconnectReg 1
        0).user_connections 1 = none :=
  ⟨(disconnect_removal_idempotent_no_presence (fun _ => 0) (fun w => w) _
      (Reachable.connectStep 1 Reachable.empty) 1 0 1 1).2.2.1,
   (disconnect_removal_idempotent_no_presence (fun _ => 0) (fun w => w) _
      (Reachable.connectStep 1 Reachable.empty) 1 0 1 1).2.2.2.1⟩

/-- C2: every broadcast event emitted by handle_send_message carries
exclude_websocket none and exclude_user_id equal to the sender's user id,
so in a reachable registry no connection owned by the sending user — on
any device — is among the recipients; the typing and read-receipt
handlers relay with exclude_websocket equal to the originating socket and
no user exclusion, and such a relay reaches exactly the conversation's
connections minus that single socket, so the same user's other
connections do receive it. -/
theorem broadcast_exclusion_correctness (convOf : ConnId → ConvId)
    (userOf : ConnId → UserId) (r : Registry)
    (h : Reachable convOf userOf r) (ws : ConnId) (f : SendFrame)
    (u : UserId) (conv : ConvId) (db : Db) (now : Nat) (p : PersistOutcome)
    (frame : ServerFrame) (conv2 : ConvId) (exW : Option ConnId)
    (exU : Option UserId)
    (hev : OutEvent.broadcast frame conv2 exW exU ∈
      (handle_send_message ws f u conv db now p).2)
    (c : ConnId) (b : Bool) (rmid : MsgId) (now2 : Nat) :
    (exW = none ∧ exU = some u)
    ∧ (userOf c = u → c ∉ r.recipients conv2 exW exU)
    ∧ (typingHandler ws u conv b =
        [.broadcast (.typing u conv b) conv (some ws) none])
    ∧ ((readReceiptHandler ws u conv rmid db now2).2 =
        [.broadcast (.read rmid u now2) conv (some ws) none])
    ∧ (r.recipients conv (some ws) none =
        (r.active_connections conv).erase ws) := by
  have hinv := inv_reachable h
  have hex : exW = none ∧ exU = some u := by
    rcases hmi : f.message_id with _ | mid
    · rw [hsm_missing_id hmi] at hev
      simp at hev
    · rcases hcv : contentVal f with _ | content
      · rw [hsm_missing_content hmi hcv] at hev
        simp at hev
      · rcases hfm : db.findMessage mid with _ | existing
        · cases p with
          | err e =>
              rw [hsm_persist_error hmi hcv hfm] at hev
              simp at hev
          | ok =>
              rw [hsm_success hmi hcv hfm] at hev
              simp at hev
              exact ⟨hev.2.2.1, hev.2.2.2⟩
        · rw [hsm_duplicate hmi hcv hfm] at hev
          simp at hev
          exact ⟨hev.2.2.1, hev.2.2.2⟩
  obtain ⟨hw0, hu0⟩ := hex
  subst hw0
  subst hu0
  refine ⟨⟨rfl, rfl⟩, ?_, rfl, rfl, recipients_exclude_ws_only r conv ws⟩
  intro huser hmem
  have hact := (mem_recipients.mp hmem).1
  have huc := uc_of_mem_active hinv hact
  apply (mem_recipients.mp hmem).2.2
  exact ⟨rfl, by rw [huc, huser]⟩

/-- Concrete frame shared by the witnesses: client id 7, content "hi". -/
def wFrame : SendFrame :=
  { message_id := some 7
    content := some ("hi")
    message_type := none
    reply_to := none
    message_metadata := none }

/-- Empty database shared by the witnesses. -/
def wDb : Db := { messages := [], conv_updated_at := [], message_reads := [] }

/-- Witness for C2: in a registry where socket 5 belongs to user 1 in
conversation 0, the sender's socket is not a recipient of the broadcast
emitted by its own successful send. -/
theorem broadcast_exclusion_correctness_witness :
    (5 : ConnId) ∉ (Registry.empty.connectReg 5 0 1).recipients 0 none
      (some 1) :=
  ((broadcast_exclusion_correctness (fun _ => 0) (fun _ => 1)
      (Registry.empty.connectReg 5 0 1)
      (Reachable.connectStep 5 Reachable.empty)
      5 wFrame 1 0 wDb 3 .ok
      (.new_message 0 (msgJsonOf (mkMessage 7 0 1 ("hi") wFrame 3)))
      0 none (some 1) (by decide) 5 true 0 0).2.1) rfl

theorem hsm_no_close (ws : ConnId) (f : SendFrame) (u : UserId)
    (conv : ConvId) (db : Db) (now : Nat) (p : PersistOutcome) :
    ((handle_send_message ws f u conv db now p).2.all
      (fun e => ! e.isClose)) = true := by
  rcases hmi : f.message_id with _ | mid
  · rw [hsm_missing_id hmi]
    rfl
  · rcases hcv : contentVal f with _ | content
    · rw [hsm_missing_content hmi hcv]
      rfl
    · rcases hfm : db.findMessage mid with _ | existing
      · rcases p with _ | e
        · rw [hsm_success hmi hcv hfm]
          rfl
        · rw [hsm_persist_error hmi hcv hfm]
          rfl
      · rw [hsm_duplicate hmi hcv hfm]
        rfl

/-- C1: for a well-formed frame (message_id and content present) whose id
is not yet persisted, the first submission persists exactly one message
with that id; resubmitting the identical frame, on the same or any other
connection of the same user, leaves the database unchanged — exactly one
persisted message in total — and the second submission is acknowledged
with a success message_ack carrying duplicated=true and the same
server_message_id as the first acknowledgment. -/
theorem send_message_idempotency (ws1 ws2 : ConnId) (f : SendFrame)
    (u : UserId) (conv : ConvId) (db : Db) (now1 now2 : Nat)
    (p2 : PersistOutcome) (mid : MsgId) (content : String)
    (hm : f.message_id = some mid) (hc : contentVal f = some content)
    (hfresh : db.findMessage mid = none) :
    ((handle_send_message ws1 f u conv db now1 .ok).1.messages.countP
        (fun m => m.id == mid) = 1)
    ∧ ((handle_send_message ws2 f u conv
          (handle_send_message ws1 f u conv db now1 .ok).1 now2 p2).1 =
        (handle_send_message ws1 f u conv db now1 .ok).1)
    ∧ (OutEvent.personal (.message_ack mid ("success") (some mid) none
          (some now1) none) ws1 ∈
        (handle_send_message ws1 f u conv db now1 .ok).2)
    ∧ (OutEvent.personal (.message_ack mid ("success") (some mid)
          (some true) none none) ws2 ∈
        (handle_send_message ws2 f u conv
          (handle_send_message ws1 f u conv db now1 .ok).1 now2 p2).2) := by
  have h1 := @hsm_success ws1 f u conv db now1 mid content hm hc hfresh
  have hzero : db.messages.countP (fun m => m.id == mid) = 0 := by
    rw [List.countP_eq_zero]
    intro a ha
    have := List.find?_eq_none.mp hfresh a ha
    simpa using this
  have hfresh2 : db.messages.find? (fun m => m.id == mid) = none := hfresh
  have hfound : (handle_send_message ws1 f u conv db now1 .ok).1.findMessage
      mid = some (mkMessage mid conv u content f now1) := by
    rw [h1]
    show (db.messages ++ [mkMessage mid conv u content f now1]).find?
      (fun m => m.id == mid) = _
    rw [List.find?_append, hfresh2]
    simp [mkMessage]
  have h2 := @hsm_duplicate ws2 f u conv
    (handle_send_message ws1 f u conv db now1 .ok).1 now2 p2 mid content
    (mkMessage mid conv u content f now1) hm hc hfound
  refine ⟨?_, ?_, ?_, ?_⟩
  · rw [h1]
    show (db.messages ++ [mkMessage mid conv u content f now1]).countP
      (fun m => m.id == mid) = 1
    rw [List.countP_append, hzero]
    simp [List.countP_cons, mkMessage]
  · rw [h2]
  · rw [h1]
    exact List.mem_cons_self _ _
  · rw [h2]
    exact List.mem_cons_self _ _

/-- Witness for C1 on the concrete frame and the empty database. -/
theorem send_message_idempotency_witness :
    ((handle_send_message 1 wFrame 1 0 wDb 3 .ok).1.messages.countP
        (fun m => m.id == 7) = 1)
    ∧ (OutEvent.personal (.message_ack 7 ("success") (some 7)
          (some true) none none) 2 ∈
        (handle_send_message 2 wFrame 1 0
          (handle_send_message 1 wFrame 1 0 wDb 3 .ok).1 4 .ok).2) :=
  ⟨(send_message_idempotency 1 2 wFrame 1 0 wDb 3 4 .ok 7 ("hi")
      rfl (by decide) (by decide)).1,
   (send_message_idempotency 1 2 wFrame 1 0 wDb 3 4 .ok 7 ("hi")
      rfl (by decide) (by decide)).2.2.2⟩

/-- Stored message fixture: id 7 persisted in conversation 0 by user 2 with
created_at = updated_at = 5. -/
def storedMsg : Message :=
  { id := 7
    conversation_id := 0
    sender_id := 2
    content := ("hello")
    message_type := ("text")
    reply_to := none
    message_metadata := none
    created_at := 5
    updated_at := 5
    edited := false }

/-- C5 counterexample: submitting a frame whose id 7 matches a stored
message with timestamps 5 yields the duplicate acknowledgment without any
timestamp field — the message_ack carrying the stored created_at as its
timestamp is not among the emitted events, so the acknowledgment does not
carry the stored timestamps as the claim states (only the re-broadcast
message does). -/
theorem duplicate_ack_lacks_stored_timestamp :
    storedMsg.created_at = 5
    ∧ (OutEvent.personal (ServerFrame.message_ack 7 ("success") (some 7)
        (some true) (some 5) none) 9 ∉
      (handle_send_message 9 wFrame 1 0 ⟨[storedMsg], [], []⟩ 11 .ok).2)
    ∧ (OutEvent.personal (ServerFrame.message_ack 7 ("success") (some 7)
        (some true) none none) 9 ∈
      (handle_send_message 9 wFrame 1 0 ⟨[storedMsg], [], []⟩ 11 .ok).2) := by
  decide

/-- C5 (amended): when the frame's message_id matches an already-persisted
message, the submitting connection receives a message_ack with status
success, duplicated=true and server_message_id equal to the stored
message's id (the acknowledgment carries no timestamp field); then the
stored message — carrying its stored created_at/updated_at — is
re-broadcast as a new_message frame to the conversation with
exclude_user_id set to the sender's user id, and the database is returned
unchanged (no new message persisted). -/
theorem duplicate_path_behaviour (ws : ConnId) (f : SendFrame) (u : UserId)
    (conv : ConvId) (db : Db) (now : Nat) (p : PersistOutcome) (mid : MsgId)
    (content : String) (existing : Message)
    (hm : f.message_id = some mid) (hc : contentVal f = some content)
    (hfound : db.findMessage mid = some existing) :
    handle_send_message ws f u conv db now p =
      (db,
       [.personal (.message_ack mid ("success") (some existing.id) (some true)
          none none) ws,
        .broadcast (.new_message conv (msgJsonOf existing)) conv none (some u)])
    ∧ (msgJsonOf existing).created_at = existing.created_at
    ∧ (msgJsonOf existing).updated_at = existing.updated_at :=
  ⟨hsm_duplicate hm hc hfound, rfl, rfl⟩

/-- Witness for C5 (amended) on the stored-message fixture. -/
theorem duplicate_path_behaviour_witness :
    handle_send_message 9 wFrame 1 0 ⟨[storedMsg], [], []⟩ 11 .ok =
      (⟨[storedMsg], [], []⟩,
       [.personal (.message_ack 7 ("success") (some 7) (some true) none
          none) 9,
        .broadcast (.new_message 0 (msgJsonOf storedMsg)) 0 none (some 1)]) :=
  (duplicate_path_behaviour 9 wFrame 1 0 ⟨[storedMsg], [], []⟩ 11 .ok 7
    ("hi") storedMsg rfl (by decide) (by decide)).1

/-- C10: the duplicate lookup matches on the message id alone — even when
the stored message was sent by a different user and belongs to a different
conversation, a send_message frame bearing its id yields a success
message_ack with duplicated=true, persists nothing, and re-broadcasts the
stored message into the current conversation's connection set with
exclude_user_id set to the sender's user id; the outer conversation_id of
the broadcast frame is the current conversation while the embedded message
keeps the stored message's own conversation and sender ids. -/
theorem duplicate_lookup_ignores_sender_and_conversation (ws : ConnId)
    (f : SendFrame) (u : UserId) (conv : ConvId) (db : Db) (now : Nat)
    (p : PersistOutcome) (mid : MsgId) (content : String) (existing : Message)
    (hm : f.message_id = some mid) (hc : contentVal f = some content)
    (hfound : db.findMessage mid = some existing)
    (hsender : existing.sender_id ≠ u)
    (hconv : existing.conversation_id ≠ conv) :
    ((handle_send_message ws f u conv db now p).1 = db)
    ∧ ((handle_send_message ws f u conv db now p).2 =
        [.personal (.message_ack mid ("success") (some existing.id)
           (some true) none none) ws,
         .broadcast (.new_message conv (msgJsonOf existing)) conv none
           (some u)])
    ∧ ((msgJsonOf existing).conversation_id = existing.conversation_id)
    ∧ ((msgJsonOf existing).sender_id = existing.sender_id) := by
  rw [hsm_duplicate hm hc hfound]
  exact ⟨rfl, rfl, rfl, rfl⟩

/-- Witness for C10: user 1 submits id 7 in conversation 3; the stored
message belongs to conversation 0 and sender 2, yet the duplicate path
fires and nothing is persisted. -/
theorem duplicate_lookup_ignores_sender_and_conversation_witness :
    ((handle_send_message 9 wFrame 1 3 ⟨[storedMsg], [], []⟩ 11 .ok).1 =
      ⟨[storedMsg], [], []⟩)
    ∧ ((msgJsonOf storedMsg).conversation_id = 0) :=
  ⟨(duplicate_lookup_ignores_sender_and_conversation 9 wFrame 1 3
      ⟨[storedMsg], [], []⟩ 11 .ok 7 ("hi") storedMsg rfl (by decide)
      (by decide) (by decide) (by decide)).1,
   (duplicate_lookup_ignores_sender_and_conversation 9 wFrame 1 3
      ⟨[storedMsg], [], []⟩ 11 .ok 7 ("hi") storedMsg rfl (by decide)
      (by decide) (by decide) (by decide)).2.2.1⟩

/-- C6: handle_send_message validates in order with two distinct failure
shapes — a frame with no message_id is answered by a message_error frame
carrying only the error text and echoing no message id, and a frame with a
message_id but no content is answered by a message_ack frame of status
error echoing the client message id; in both cases the database is
returned unchanged (nothing persisted) and no emitted event closes the
connection. -/
theorem validation_failure_shapes (ws : ConnId) (f : SendFrame) (u : UserId)
    (conv : ConvId) (db : Db) (now : Nat) (p : PersistOutcome) (mid : MsgId) :
    (f.message_id = none →
      handle_send_message ws f u conv db now p =
        (db, [.personal (.message_error ("message_id required") ("error")) ws]))
    ∧ (f.message_id = some mid → contentVal f = none →
      handle_send_message ws f u conv db now p =
        (db, [.personal (.message_ack mid ("error") none none none
          (some ("content required"))) ws]))
    ∧ ((handle_send_message ws f u conv db now p).2.all
        (fun e => ! e.isClose) = true) :=
  ⟨fun h => hsm_missing_id h,
   fun h1 h2 => hsm_missing_content h1 h2,
   hsm_no_close ws f u conv db now p⟩

/-- Malformed frame with no message_id. -/
def wFrameNoId : SendFrame :=
  { message_id := none
    content := some ("hi")
    message_type := none
    reply_to := none
    message_metadata := none }

/-- Malformed frame with a message_id but no content. -/
def wFrameNoContent : SendFrame :=
  { message_id := some 7
    content := none
    message_type := none
    reply_to := none
    message_metadata := none }

/-- Witness for C6: the two malformed frames and their distinct replies. -/
theorem validation_failure_shapes_witness :
    (handle_send_message 1 wFrameNoId 1 0 wDb 3 .ok =
      (wDb, [.personal (.message_error ("message_id required") ("error")) 1]))
    ∧ (handle_send_message 1 wFrameNoContent 1 0 wDb 3 .ok =
      (wDb, [.personal (.message_ack 7 ("error") none none none
        (some ("content required"))) 1])) :=
  ⟨(validation_failure_shapes 1 wFrameNoId 1 0 wDb 3 .ok 7).1 rfl,
   (validation_failure_shapes 1 wFrameNoContent 1 0 wDb 3 .ok 7).2.1 rfl rfl⟩

/-- C7: when the commit of the non-duplicate persist path raises an
exception with description e, the transaction is discarded — the returned
database is the input database, so neither the new message nor the
conversation timestamp update survives — and the submitting connection
receives a message_ack of status error whose error field is the raw
description e; no emitted event closes the connection. -/
theorem persist_failure_rollback (ws : ConnId) (f : SendFrame) (u : UserId)
    (conv : ConvId) (db : Db) (now : Nat) (e : String) (mid : MsgId)
    (content : String)
    (hm : f.message_id = some mid) (hc : contentVal f = some content)
    (hfresh : db.findMessage mid = none) :
    (handle_send_message ws f u conv db now (.err e) =
      (db, [.personal (.message_ack mid ("error") none none none (some e)) ws]))
    ∧ ((handle_send_message ws f u conv db now (.err e)).2.all
        (fun ev => ! ev.isClose) = true) :=
  ⟨hsm_persist_error hm hc hfresh, hsm_no_close ws f u conv db now (.err e)⟩

/-- Witness for C7 with failure description "db down". -/
theorem persist_failure_rollback_witness :
    handle_send_message 1 wFrame 1 0 wDb 3 (.err ("db down")) =
      (wDb, [.personal (.message_ack 7 ("error") none none none
        (some ("db down"))) 1]) :=
  (persist_failure_rollback 1 wFrame 1 0 wDb 3 ("db down") 7 ("hi")
    rfl (by decide) (by decide)).1

/-- Event a occurs at a strictly earlier position than event b in an
emitted effect list. -/
def precedes (evs : List OutEvent) (a b : OutEvent) : Prop :=
  ∃ i j, i < j ∧ evs.get? i = some a ∧ evs.get? j = some b

/-- C8: on the non-duplicate success path the emitted effects are exactly
the success acknowledgment to the submitting socket followed by the
new_message broadcast, so the acknowledgment is sent strictly before the
fan-out begins. -/
theorem ack_sent_before_broadcast (ws : ConnId) (f : SendFrame) (u : UserId)
    (conv : ConvId) (db : Db) (now : Nat) (mid : MsgId) (content : String)
    (hm : f.message_id = some mid) (hc : contentVal f = some content)
    (hfresh : db.findMessage mid = none) :
    ((handle_send_message ws f u conv db now .ok).2 =
      [.personal (.message_ack mid ("success") (some mid) none (some now)
         none) ws,
       .broadcast (.new_message conv (msgJsonOf (mkMessage mid conv u content
         f now))) conv none (some u)])
    ∧ precedes (handle_send_message ws f u conv db now .ok).2
        (.personal (.message_ack mid ("success") (some mid) none (some now)
           none) ws)
        (.broadcast (.new_message conv (msgJsonOf (mkMessage mid conv u
           content f now))) conv none (some u)) := by
  have h := @hsm_success ws f u conv db now mid content hm hc hfresh
  constructor
  · rw [h]
  · rw [h]
    exact ⟨0, 1, Nat.zero_lt_one, rfl, rfl⟩

/-- Witness for C8 on the concrete frame and the empty database. -/
theorem ack_sent_before_broadcast_witness :
    precedes (handle_send_message 1 wFrame 1 0 wDb 3 .ok).2
      (.personal (.message_ack 7 ("success") (some 7) none (some 3) none) 1)
      (.broadcast (.new_message 0 (msgJsonOf (mkMessage 7 0 1 ("hi") wFrame 3)))
        0 none (some 1)) :=
  (ack_sent_before_broadcast 1 wFrame 1 0 wDb 3 7 ("hi") rfl (by decide)
    (by decide)).2

end ChatClone
